import Mathlib

/-!
DataSpan and the file-server example state machine

A shallow embedding of

* `isobus/include/isobus/isobus/can_message_data.hpp`: the class template
  `DataSpan<T>` and `DataSpanFactory`;
* `examples/file_server_client/main.cpp`: the example state machine that
  `main` runs in its `while (running)` loop.

Memory model

The target has a flat address space of `2 ^ w` bytes; `std::size_t` and
pointers are `w` bits wide, and `w` is a parameter.  A `T *` is the byte
address of an object.  Arithmetic on `std::size_t` is reduced modulo `2 ^ w`,
and so is arithmetic on addresses: `p + k` and `p[k]` on a `T *` move by
`k * sizeof(T)` bytes, modulo `2 ^ w`.  `sizeof(T)` is the parameter `sizeofT`.

The memory a span points into is a `Store`: objects of type `T` laid out
back to back from a base address.  Dereferencing an address at which no object
of the store lives gives `none`.
-/

set_option autoImplicit false

namespace isobus

/-! ## `std::size_t` and pointer arithmetic -/

/-- The product `a * b` of two `std::size_t` operands on a target whose
`std::size_t` has `w` bits. -/
def size_t_mul (w a b : Nat) : Nat :=
  (a * b) % 2 ^ w

/-- The sum `p + k` of a `T *` and a `std::size_t` (also `&p[k]`): the address
`k * sizeof(T)` bytes after `p`, in the `w`-bit address arithmetic of the
target. -/
def ptr_add (w sizeofT p k : Nat) : Nat :=
  (p + k * sizeofT) % 2 ^ w

/-- The difference `a - b` of two `T *`, a `std::ptrdiff_t`: the `w`-bit signed
distance in bytes, divided by `sizeof(T)`. -/
def ptr_diff (w sizeofT a b : Nat) : Int :=
  let bytes := (a % 2 ^ w + (2 ^ w - b % 2 ^ w)) % 2 ^ w
  let distance : Int := if bytes < 2 ^ (w - 1) then (bytes : Int) else (bytes : Int) - 2 ^ w
  Int.tdiv distance (sizeofT : Int)

/-! ## Object store -/

/-- A block of memory holding objects of type `T` back to back: object `j`
lives at address `base + j * sizeof(T)`. -/
structure Store (T : Type) where
  /-- The address of the first object. -/
  base : Nat
  /-- The objects, in address order. -/
  objs : List T

/-- Reading through a `T *` (or a `T &`) that holds address `addr`: the object
of the store that lives at this address, if there is one. -/
def deref {T : Type} (sizeofT : Nat) (store : Store T) (addr : Nat) : Option T :=
  if store.base ≤ addr ∧ (addr - store.base) % sizeofT = 0 then
    store.objs[(addr - store.base) / sizeofT]?
  else none

/-- The contents of a buffer of `n` elements that starts at address `ptr`:
entry `j` is what `ptr[j]` reads. -/
def bufferAt {T : Type} (w sizeofT : Nat) (store : Store T) (ptr n : Nat) : List (Option T) :=
  (List.range n).map (fun j => deref sizeofT store (ptr_add w sizeofT ptr j))

/-! ## `DataSpan<T>` -/

/-- The class `DataSpan<T>`: its two private members. -/
structure DataSpan where
  /-- The member `T *ptr`. -/
  ptr : Nat
  /-- The member `std::size_t _size`. -/
  _size : Nat
  deriving DecidableEq, Repr

namespace DataSpan

/-- The constructor `DataSpan(T *ptr, std::size_t size) : ptr(ptr), _size(size)`. -/
def new (ptr size : Nat) : DataSpan :=
  ⟨ptr, size⟩

/-- The mutable overload `T &operator[](std::size_t index)`:
`return ptr[index * sizeof(T)];`.  The result is the address of the object the
returned reference designates. -/
def operator_index (w sizeofT : Nat) (self : DataSpan) (index : Nat) : Nat :=
  ptr_add w sizeofT self.ptr (size_t_mul w index sizeofT)

/-- The const overload `T const &operator[](std::size_t index) const`:
`return ptr[index * sizeof(T)];`. -/
def operator_index_const (w sizeofT : Nat) (self : DataSpan) (index : Nat) : Nat :=
  ptr_add w sizeofT self.ptr (size_t_mul w index sizeofT)

/-- The member `std::size_t size() const`: `return _size;`. -/
def size (self : DataSpan) : Nat :=
  self._size

/-- The member `T *begin()`: `return ptr;`. -/
def begin (self : DataSpan) : Nat :=
  self.ptr

/-- The member `T *end()`: `return ptr + _size * sizeof(T);`. -/
def «end» (w sizeofT : Nat) (self : DataSpan) : Nat :=
  ptr_add w sizeofT self.ptr (size_t_mul w self._size sizeofT)

end DataSpan

/-! ## `std::array<T, N>` and `DataSpanFactory` -/

/-- A `std::array<T, N>` object: `data` is what `array.data()` returns, the
address of its first element. -/
structure StdArray (N : Nat) where
  /-- The address of element 0. -/
  data : Nat
  deriving DecidableEq, Repr

/-- The element access `array[i]` of a `std::array<T, N>`: `*(array.data() + i)`. -/
def StdArray.at {T : Type} {N : Nat} (w sizeofT : Nat) (array : StdArray N) (store : Store T)
    (i : Nat) : Option T :=
  deref sizeofT store (ptr_add w sizeofT array.data i)

namespace DataSpanFactory

/-- The factory `fromArray(std::array<T, N> &array)`:
`return DataSpan<T>(array.data(), N);`. -/
def fromArray {N : Nat} (array : StdArray N) : DataSpan :=
  DataSpan.new array.data N

/-- The factory `cfromArray(std::array<T, N> &array)`:
`return DataSpan<std::add_const_t<T>>(array.data(), N);`. -/
def cfromArray {N : Nat} (array : StdArray N) : DataSpan :=
  DataSpan.new array.data N

end DataSpanFactory

/-! ## Iterating a span -/

/-- The range-based loop `for (it = first; it != last; ++it)` over `T *`: the
addresses it visits, in order, when it stops within `fuel` steps. -/
def rangeFor (w sizeofT : Nat) : Nat → Nat → Nat → Option (List Nat)
  | 0, first, last => if first = last then some [] else none
  | fuel + 1, first, last =>
    if first = last then some []
    else (rangeFor w sizeofT fuel (ptr_add w sizeofT first 1) last).map
      (fun rest => first :: rest)

end isobus

/-! ## The example state machine of `examples/file_server_client/main.cpp` -/

namespace FileServerExample

/-- The enumeration `ExampleStateMachineState`, enumerators in declaration order. -/
inductive ExampleStateMachineState
  | OpenFile
  | WaitForFileToBeOpen
  | WriteFile
  | WaitForFileWrite
  | CloseFile
  | ExampleComplete
  deriving DecidableEq, Repr

/-- What the calls on `TestFileServerClient` return during one iteration of the
loop.  `isobus::FileServerClient` is declared in
`isobus/isobus/isobus_file_server_client.hpp`, which is not embedded here, so
its results are inputs; `FileState` stands for `FileServerClient::FileState`.  The
arguments that are the same in every iteration (`fileNameToUse`, the open
flags, the file contents) are left out; the file handle passed is kept. -/
structure FileServerClient (FileState : Type) where
  /-- The result of `open_file(fileNameToUse, true, true, ...)`. -/
  open_file : Bool
  /-- The result of `get_file_handle(fileNameToUse)`, a `std::uint8_t`. -/
  get_file_handle : Nat
  /-- The result of `write_file(handle, data, size)` as a function of `handle`. -/
  write_file : Nat → Bool
  /-- The result of `get_file_state(handle)` as a function of `handle`. -/
  get_file_state : Nat → FileState
  /-- The result of `close_file(handle)` as a function of `handle`. -/
  close_file : Nat → Bool

/-- The variables of `main` that the loop reads and writes. -/
structure LoopVars where
  /-- The local `ExampleStateMachineState state`. -/
  state : ExampleStateMachineState
  /-- The local `std::uint8_t fileHandle`. -/
  fileHandle : Nat
  deriving DecidableEq, Repr

open ExampleStateMachineState

/-- The `switch (state)` statement, the body of `while (running)`.
`INVALID_FILE_HANDLE` is `FileServerClient::INVALID_FILE_HANDLE` and `FileOpen`
is `FileServerClient::FileState::FileOpen`. -/
def switchState {FileState : Type} [DecidableEq FileState] (INVALID_FILE_HANDLE : Nat)
    (FileOpen : FileState) (client : FileServerClient FileState) (v : LoopVars) : LoopVars :=
  match v.state with
  | OpenFile =>
    if client.open_file then ⟨WaitForFileToBeOpen, v.fileHandle⟩ else v
  | WaitForFileToBeOpen =>
    let fileHandle := client.get_file_handle
    if INVALID_FILE_HANDLE ≠ fileHandle then ⟨WriteFile, fileHandle⟩
    else ⟨WaitForFileToBeOpen, fileHandle⟩
  | WriteFile =>
    if client.write_file v.fileHandle then ⟨WaitForFileWrite, v.fileHandle⟩ else v
  | WaitForFileWrite =>
    if FileOpen = client.get_file_state v.fileHandle then ⟨CloseFile, v.fileHandle⟩ else v
  | CloseFile =>
    if client.close_file client.get_file_handle then ⟨ExampleComplete, v.fileHandle⟩ else v
  | ExampleComplete => v

/-- The loop `while (running) { switch (state) ...; sleep_for(100ms); }`: one
entry of `iterations` for every time `running` was read as true, holding what
the client answers during that iteration. -/
def whileRunning {FileState : Type} [DecidableEq FileState] (INVALID_FILE_HANDLE : Nat)
    (FileOpen : FileState) : List (FileServerClient FileState) → LoopVars → LoopVars
  | [], v => v
  | client :: iterations, v =>
    whileRunning INVALID_FILE_HANDLE FileOpen iterations
      (switchState INVALID_FILE_HANDLE FileOpen client v)

/-- The values of `state` and `fileHandle` when the loop is entered. -/
def initialVars (INVALID_FILE_HANDLE : Nat) : LoopVars :=
  ⟨OpenFile, INVALID_FILE_HANDLE⟩

/-- The enumerator declared right after `s`, if there is one. -/
def successor : ExampleStateMachineState → Option ExampleStateMachineState
  | OpenFile => some WaitForFileToBeOpen
  | WaitForFileToBeOpen => some WriteFile
  | WriteFile => some WaitForFileWrite
  | WaitForFileWrite => some CloseFile
  | CloseFile => some ExampleComplete
  | ExampleComplete => none

/-- The test that guards the assignment to `state` in the case of the switch
that is taken in state `v.state`: the call made there succeeded, or the value
polled there is the awaited one.  `ExampleComplete` has no such test. -/
def stateCondition {FileState : Type} [DecidableEq FileState] (INVALID_FILE_HANDLE : Nat)
    (FileOpen : FileState) (client : FileServerClient FileState) (v : LoopVars) : Bool :=
  match v.state with
  | OpenFile => client.open_file
  | WaitForFileToBeOpen => decide (INVALID_FILE_HANDLE ≠ client.get_file_handle)
  | WriteFile => client.write_file v.fileHandle
  | WaitForFileWrite => decide (FileOpen = client.get_file_state v.fileHandle)
  | CloseFile => client.close_file client.get_file_handle
  | ExampleComplete => false

end FileServerExample

/-! ## Auxiliary facts -/

namespace isobus

theorem size_t_mul_one {w i : Nat} (h : i < 2 ^ w) : size_t_mul w i 1 = i := by
  simp [size_t_mul, Nat.mod_eq_of_lt h]

/-- Reducing the element count modulo `2 ^ w` first does not change the
address reached. -/
theorem ptr_add_size_t_mul (w sizeofT p i : Nat) :
    ptr_add w sizeofT p (size_t_mul w i sizeofT) = ptr_add w sizeofT p (i * sizeofT) := by
  have h : (i * sizeofT) % 2 ^ w * sizeofT ≡ i * sizeofT * sizeofT [MOD 2 ^ w] :=
    (Nat.mod_modEq _ _).mul_right sizeofT
  exact h.add_left p

theorem ptr_add_of_lt {w sizeofT p k : Nat} (h : p + k * sizeofT < 2 ^ w) :
    ptr_add w sizeofT p k = p + k * sizeofT := by
  simp [ptr_add, Nat.mod_eq_of_lt h]

/-- Object `j` of the store is what is read at address `base + j * sizeof(T)`. -/
theorem deref_at {T : Type} {sizeofT : Nat} (hs : 0 < sizeofT) (store : Store T) (j : Nat) :
    deref sizeofT store (store.base + j * sizeofT) = store.objs[j]? := by
  simp [deref, Nat.mul_div_cancel _ hs]

/-- Nothing is read at `addr` exactly when no object of the store lives there. -/
theorem deref_eq_none_iff {T : Type} {sizeofT : Nat} (hs : 0 < sizeofT) (store : Store T)
    (addr : Nat) :
    deref sizeofT store addr = none
      ↔ ∀ j, j < store.objs.length → addr ≠ store.base + j * sizeofT := by
  constructor
  · intro h j hj hadd
    rw [hadd, deref_at hs] at h
    simp at h
    omega
  · intro h
    unfold deref
    split_ifs with hc
    · rw [List.getElem?_eq_none_iff]
      by_contra hlt
      have hq := Nat.div_mul_cancel (Nat.dvd_of_mod_eq_zero hc.2)
      exact h ((addr - store.base) / sizeofT) (by omega) (by omega)
    · rfl

theorem bufferAt_getElem? {T : Type} (w sizeofT : Nat) (store : Store T) (ptr n i : Nat)
    (h : i < n) :
    (bufferAt w sizeofT store ptr n)[i]? = some (deref sizeofT store (ptr_add w sizeofT ptr i)) := by
  simp [bufferAt, List.getElem?_range h]

/-- The loop over `n` elements from `first` on, none of them beyond the end of
the address space, stops once it has `n` steps of fuel and visits the `n`
addresses `first`, `first + sizeof(T)`, ... -/
theorem rangeFor_add (w sizeofT : Nat) (hs : 0 < sizeofT) (fuel first n : Nat) (h : n ≤ fuel)
    (hfit : first + n * sizeofT < 2 ^ w) :
    rangeFor w sizeofT fuel first (first + n * sizeofT)
      = some ((List.range n).map (fun j => first + j * sizeofT)) := by
  induction fuel generalizing first n with
  | zero =>
    obtain rfl : n = 0 := by omega
    simp [rangeFor]
  | succ fuel ih =>
    cases n with
    | zero => simp [rangeFor]
    | succ n =>
      have hpos : 0 < (n + 1) * sizeofT := Nat.mul_pos (Nat.succ_pos n) hs
      have hne : first ≠ first + (n + 1) * sizeofT := by omega
      have hexp : (n + 1) * sizeofT = n * sizeofT + sizeofT := Nat.succ_mul n sizeofT
      have hnext : ptr_add w sizeofT first 1 = first + sizeofT := by
        have := @ptr_add_of_lt w sizeofT first 1 (by omega)
        simpa using this
      have hstep : first + (n + 1) * sizeofT = first + sizeofT + n * sizeofT := by omega
      simp only [rangeFor, hne, if_false, hnext]
      rw [hstep, ih (first + sizeofT) n (by omega) (by omega)]
      simp only [Option.map_some', List.range_succ_eq_map, List.map_cons, List.map_map]
      congr 2
      · simp
      · apply List.map_congr_left
        intro j _
        simp only [Function.comp]
        rw [Nat.succ_mul]
        omega

end isobus

/-! ## `DataSpan`: indexing, size and iterators -/

namespace isobus

open DataSpanFactory

/-- C1, evaluated on the code: a `DataSpan<std::uint16_t>` (`sizeof(T) = 2`, 64-bit
target) made by `fromArray` from the array `{10, 11, 12, 13}` has index 1
within `size() = 4`, yet both overloads of `operator[](1)` designate element 2
of the array and read 12, where element 1 of the backing buffer is 11; and
`operator[](2)`, also within `size()`, designates an address past the array. -/
theorem operator_index_uint16_skips_elements :
    1 < (fromArray (⟨0⟩ : StdArray 4)).size ∧
    (fromArray (⟨0⟩ : StdArray 4)).operator_index 64 2 1 = ptr_add 64 2 0 2 ∧
    deref 2 ⟨0, [10, 11, 12, 13]⟩ ((fromArray (⟨0⟩ : StdArray 4)).operator_index 64 2 1)
      = some 12 ∧
    deref 2 ⟨0, [10, 11, 12, 13]⟩ ((fromArray (⟨0⟩ : StdArray 4)).operator_index_const 64 2 1)
      = some 12 ∧
    (bufferAt 64 2 ⟨0, [10, 11, 12, 13]⟩ 0 4)[1]? = some (some 11) ∧
    StdArray.at 64 2 (⟨0⟩ : StdArray 4) ⟨0, [10, 11, 12, 13]⟩ 1 = some 11 ∧
    2 < (fromArray (⟨0⟩ : StdArray 4)).size ∧
    deref 2 ⟨0, [10, 11, 12, 13]⟩ ((fromArray (⟨0⟩ : StdArray 4)).operator_index 64 2 2)
      = none := by
  decide

/-- C2 as stated fails: a span of size 4 built over the first bytes of an
8-byte buffer, asked for index 5 (which is `≥ size()`), yields byte 5 of the
underlying memory through both overloads. -/
theorem operator_index_past_size_yields_element :
    5 ≥ (DataSpan.new 0 4).size ∧
    deref 1 ⟨0, [10, 11, 12, 13, 14, 15, 16, 17]⟩ ((DataSpan.new 0 4).operator_index 64 1 5)
      = some 15 ∧
    deref 1 ⟨0, [10, 11, 12, 13, 14, 15, 16, 17]⟩
        ((DataSpan.new 0 4).operator_index_const 64 1 5)
      = some 15 := by
  decide

/-- C2 as amended: indexing never looks at `size()`.  For every span, every
index (below `size()` or not) and `sizeof(T) ≥ 1`, `operator[]` (either
overload) designates the same address whatever size the span was constructed
with, namely `ptr + ((index * sizeof(T)) mod 2^w) * sizeof(T)` in the `w`-bit
address arithmetic of the target.  Reading through it yields the object of the
underlying memory that lives at that address whenever there is one; in
particular, for a span that starts at element `p` of a memory block lying in
the address space, it yields element `p + (index * sizeof(T)) mod 2^w` of the
block whenever the block has such an element.  It yields no element exactly
when no object of the underlying memory lives at that address. -/
theorem operator_index_ignores_size (w sizeofT : Nat) {T : Type} (store : Store T)
    (self : DataSpan) (size' index : Nat) (hs : 0 < sizeofT) :
    self.operator_index w sizeofT index
      = (DataSpan.new self.ptr size').operator_index w sizeofT index ∧
    self.operator_index_const w sizeofT index = self.operator_index w sizeofT index ∧
    self.operator_index w sizeofT index
      = (self.ptr + (index * sizeofT) % 2 ^ w * sizeofT) % 2 ^ w ∧
    (∀ j, self.operator_index w sizeofT index = store.base + j * sizeofT →
      deref sizeofT store (self.operator_index w sizeofT index) = store.objs[j]?) ∧
    (∀ p, self.ptr = store.base + p * sizeofT →
      p + (index * sizeofT) % 2 ^ w < store.objs.length →
      store.base + store.objs.length * sizeofT ≤ 2 ^ w →
      deref sizeofT store (self.operator_index w sizeofT index)
        = store.objs[p + (index * sizeofT) % 2 ^ w]? ∧
      (deref sizeofT store (self.operator_index w sizeofT index)).isSome = true) ∧
    (deref sizeofT store (self.operator_index w sizeofT index) = none
      ↔ ∀ j, j < store.objs.length →
          self.operator_index w sizeofT index ≠ store.base + j * sizeofT) := by
  refine ⟨rfl, rfl, rfl, ?_, ?_, deref_eq_none_iff hs store _⟩
  · intro j hj
    rw [hj, deref_at hs]
  · intro p hptr hin hspace
    have hlt : (p + (index * sizeofT) % 2 ^ w) * sizeofT < store.objs.length * sizeofT :=
      Nat.mul_lt_mul_of_pos_right hin hs
    have haddr : self.operator_index w sizeofT index
        = store.base + (p + (index * sizeofT) % 2 ^ w) * sizeofT := by
      unfold DataSpan.operator_index size_t_mul
      rw [hptr, ptr_add_of_lt (by rw [Nat.add_mul] at hlt; omega), Nat.add_mul]
      omega
    rw [haddr, deref_at hs]
    refine ⟨rfl, ?_⟩
    simp [hin]

/-- C2 at a concrete span: a `uint16_t` span of size 4 over `{10, 11, 12, 13}`
at address 4096 on a 64-bit target, asked for index `2^62`, reaches address
4096 again and reads element 0. -/
theorem operator_index_ignores_size_witness :
    0 < 2 ∧
    deref 2 ⟨4096, [10, 11, 12, 13]⟩ ((DataSpan.new 4096 4).operator_index 64 2 (2 ^ 62))
      = some 10 :=
  ⟨by decide,
    ((operator_index_ignores_size 64 2 ⟨4096, [10, 11, 12, 13]⟩ (DataSpan.new 4096 4) 0 (2 ^ 62)
      (by decide)).2.2.2.1 0 (by decide)).trans (by decide)⟩

/-- C3: for single-byte elements (`sizeof(T) = 1`) and every index below
`size()`, both overloads of `operator[]` designate the address of `ptr[index]`
(which is `ptr + index` for a buffer inside the address space) and read element
`index` of the backing buffer, an actual element when the buffer lies inside
the store; and for a span made by `fromArray` from an `N`-byte array,
`view[j] = array[j]` for every `j < N`. -/
theorem operator_index_single_byte (w : Nat) {T : Type} (store : Store T) (self : DataSpan)
    (index : Nat) (hsize : self.size < 2 ^ w) (hindex : index < self.size) :
    self.operator_index w 1 index = ptr_add w 1 self.ptr index ∧
    self.operator_index_const w 1 index = ptr_add w 1 self.ptr index ∧
    (self.ptr + self.size ≤ 2 ^ w → self.operator_index w 1 index = self.ptr + index) ∧
    some (deref 1 store (self.operator_index w 1 index))
      = (bufferAt w 1 store self.ptr self.size)[index]? ∧
    some (deref 1 store (self.operator_index_const w 1 index))
      = (bufferAt w 1 store self.ptr self.size)[index]? ∧
    (∀ p, self.ptr = store.base + p → p + self.size ≤ store.objs.length →
      store.base + store.objs.length ≤ 2 ^ w →
      deref 1 store (self.operator_index w 1 index) = store.objs[p + index]? ∧
      deref 1 store (self.operator_index_const w 1 index) = store.objs[p + index]? ∧
      (deref 1 store (self.operator_index w 1 index)).isSome = true) ∧
    (∀ (N : Nat) (array : StdArray N) (j : Nat), N < 2 ^ w → j < N →
      deref 1 store ((fromArray array).operator_index w 1 j) = array.at w 1 store j ∧
      deref 1 store ((fromArray array).operator_index_const w 1 j) = array.at w 1 store j) := by
  have hlt : index < 2 ^ w := Nat.lt_trans hindex hsize
  have hloc : self.operator_index w 1 index = ptr_add w 1 self.ptr index := by
    simp [DataSpan.operator_index, size_t_mul_one hlt]
  have hlocc : self.operator_index_const w 1 index = ptr_add w 1 self.ptr index := by
    simp [DataSpan.operator_index_const, size_t_mul_one hlt]
  refine ⟨hloc, hlocc, ?_, ?_, ?_, ?_, ?_⟩
  · intro hfit
    rw [hloc, ptr_add_of_lt (by omega)]
    omega
  · rw [hloc, bufferAt_getElem? w 1 store self.ptr self.size index hindex]
  · rw [hlocc, bufferAt_getElem? w 1 store self.ptr self.size index hindex]
  · intro p hptr hin hspace
    have haddr : ptr_add w 1 self.ptr index = store.base + (p + index) * 1 := by
      rw [ptr_add_of_lt (by omega)]
      omega
    rw [hlocc, hloc, haddr, deref_at Nat.one_pos]
    refine ⟨rfl, rfl, ?_⟩
    have : p + index < store.objs.length := by omega
    simp [this]
  · intro N array j hN hj
    have hj' : j < 2 ^ w := Nat.lt_trans hj hN
    simp [DataSpan.operator_index, DataSpan.operator_index_const, fromArray, DataSpan.new,
      StdArray.at, size_t_mul_one hj']

/-- C3 at a concrete span: a byte span over `{10, 11, 12, 13}` placed at
address 2 of the store, index 3, reads 13. -/
theorem operator_index_single_byte_witness :
    (DataSpan.new 2 4).size < 2 ^ 64 ∧ 3 < (DataSpan.new 2 4).size ∧
    deref 1 ⟨0, [7, 8, 10, 11, 12, 13, 9]⟩ ((DataSpan.new 2 4).operator_index 64 1 3)
      = some 13 :=
  ⟨by decide, by decide,
    ((operator_index_single_byte 64 ⟨0, [7, 8, 10, 11, 12, 13, 9]⟩ (DataSpan.new 2 4) 3
      (by decide) (by decide)).2.2.2.2.2.1 2 (by decide) (by decide) (by decide)).1.trans
      (by decide)⟩

/-- C4: `size()` returns the count handed to the constructor, for every
pointer and count; a span made by `fromArray` or `cfromArray` from a
`std::array<T, N>` has `size() = N` and `begin() = array.data()`. -/
theorem size_is_constructed_count (ptr count : Nat) :
    (DataSpan.new ptr count).size = count ∧
    (∀ (N : Nat) (array : StdArray N),
      (fromArray array).size = N ∧ (fromArray array).begin = array.data ∧
      (cfromArray array).size = N ∧ (cfromArray array).begin = array.data) :=
  ⟨rfl, fun _ _ => ⟨rfl, rfl, rfl, rfl⟩⟩

/-- C6, evaluated on the code: for a `DataSpan<std::uint16_t>` (`sizeof(T) = 2`,
64-bit target) of size 4 over the first four elements of a store,
`end() - begin()` is 8 and not `size() = 4`; the loop over `[begin(), end())`
visits 8 elements, the last four of them past the span's buffer. -/
theorem end_uint16_overshoots :
    (DataSpan.new 0 4).size = 4 ∧
    ptr_diff 64 2 ((DataSpan.new 0 4).end 64 2) (DataSpan.new 0 4).begin = 8 ∧
    (DataSpan.new 0 4).end 64 2 = ptr_add 64 2 (DataSpan.new 0 4).begin 8 ∧
    rangeFor 64 2 8 (DataSpan.new 0 4).begin ((DataSpan.new 0 4).end 64 2)
      = some [0, 2, 4, 6, 8, 10, 12, 14] ∧
    (rangeFor 64 2 8 (DataSpan.new 0 4).begin ((DataSpan.new 0 4).end 64 2)).map
        (fun addrs => addrs.map (deref 2 ⟨0, [10, 11, 12, 13, 20, 21, 22, 23]⟩))
      = some [some 10, some 11, some 12, some 13, some 20, some 21, some 22, some 23] ∧
    bufferAt 64 2 ⟨0, [10, 11, 12, 13, 20, 21, 22, 23]⟩ (DataSpan.new 0 4).begin
        (DataSpan.new 0 4).size
      = [some 10, some 11, some 12, some 13] := by
  decide

/-- The iterator `end()` in general: the address `size() * sizeof(T)` elements
after `begin()`; when that many elements fit below the end of the address
space, the loop over `[begin(), end())` stops and visits `size() * sizeof(T)`
elements. -/
theorem end_eq_ptr_add (w sizeofT : Nat) (self : DataSpan) (hs : 0 < sizeofT)
    (hfit : self.ptr + self.size * sizeofT * sizeofT < 2 ^ w) :
    self.end w sizeofT = ptr_add w sizeofT self.begin (self.size * sizeofT) ∧
    rangeFor w sizeofT (self.size * sizeofT) self.begin (self.end w sizeofT)
      = some ((List.range (self.size * sizeofT)).map (fun j => self.begin + j * sizeofT)) := by
  have hend : self.end w sizeofT = ptr_add w sizeofT self.begin (self.size * sizeofT) :=
    ptr_add_size_t_mul w sizeofT self.ptr self.size
  refine ⟨hend, ?_⟩
  have hfit' : self.begin + self.size * sizeofT * sizeofT < 2 ^ w := hfit
  rw [hend, ptr_add_of_lt hfit']
  exact rangeFor_add w sizeofT hs _ _ _ (Nat.le_refl _) hfit'

/-- On a 64-bit target the address arithmetic wraps: a `uint16_t` span at
address 4096 asked for index `2^62` reads element 0 of its buffer, a byte span
that starts one byte into a store asked for index `2^64 - 1` reads the byte
before its start, and a `uint16_t` span of size `2^62` has `end() = begin()`. -/
theorem pointer_arithmetic_wraps :
    deref 2 ⟨4096, [10, 11, 12, 13]⟩ ((DataSpan.new 4096 4).operator_index 64 2 (2 ^ 62))
      = some 10 ∧
    deref 1 ⟨4096, [10, 11, 12, 13]⟩ ((DataSpan.new 4097 3).operator_index 64 1 (2 ^ 64 - 1))
      = some 10 ∧
    (DataSpan.new 4096 (2 ^ 62)).end 64 2 = (DataSpan.new 4096 (2 ^ 62)).begin := by
  decide

end isobus

/-! ## The example state machine -/

namespace FileServerExample

open ExampleStateMachineState

/-- Once `state` is `ExampleComplete`, no run of the loop changes the
variables. -/
theorem whileRunning_complete {FileState : Type} [DecidableEq FileState]
    (INVALID_FILE_HANDLE : Nat) (FileOpen : FileState)
    (iterations : List (FileServerClient FileState)) (fileHandle : Nat) :
    whileRunning INVALID_FILE_HANDLE FileOpen iterations ⟨ExampleComplete, fileHandle⟩
      = ⟨ExampleComplete, fileHandle⟩ := by
  induction iterations with
  | nil => rfl
  | cons client iterations ih => simpa [whileRunning, switchState] using ih

/-- C7: in every iteration of the loop, whatever the file-server client
returns, `state` stays the same or becomes its immediate successor in the
order `OpenFile`, `WaitForFileToBeOpen`, `WriteFile`, `WaitForFileWrite`,
`CloseFile`, `ExampleComplete`; it becomes the successor exactly when the call
made in that state succeeds (or the value polled there is the awaited one) and
stays the same exactly when it does not; and `ExampleComplete` is absorbing:
it has no successor, an iteration leaves it in place, and so does every
further run of the loop. -/
theorem state_machine_steps_forward {FileState : Type} [DecidableEq FileState]
    (INVALID_FILE_HANDLE : Nat) (FileOpen : FileState) (client : FileServerClient FileState)
    (v : LoopVars) (iterations : List (FileServerClient FileState)) (fileHandle : Nat) :
    ((switchState INVALID_FILE_HANDLE FileOpen client v).state = v.state ∨
      some (switchState INVALID_FILE_HANDLE FileOpen client v).state = successor v.state) ∧
    (some (switchState INVALID_FILE_HANDLE FileOpen client v).state = successor v.state
      ↔ stateCondition INVALID_FILE_HANDLE FileOpen client v = true) ∧
    ((switchState INVALID_FILE_HANDLE FileOpen client v).state = v.state
      ↔ stateCondition INVALID_FILE_HANDLE FileOpen client v = false) ∧
    successor ExampleComplete = none ∧
    (switchState INVALID_FILE_HANDLE FileOpen client ⟨ExampleComplete, fileHandle⟩).state
      = ExampleComplete ∧
    (whileRunning INVALID_FILE_HANDLE FileOpen iterations ⟨ExampleComplete, fileHandle⟩).state
      = ExampleComplete := by
  refine ⟨?_, ?_, ?_, rfl, rfl, ?_⟩
  · obtain ⟨state, fh⟩ := v
    cases state <;> simp only [switchState, successor] <;> (try split_ifs) <;> simp
  · obtain ⟨state, fh⟩ := v
    cases state <;> simp only [switchState, successor, stateCondition] <;>
      (try split_ifs) <;> simp_all
  · obtain ⟨state, fh⟩ := v
    cases state <;> simp only [switchState, successor, stateCondition] <;>
      (try split_ifs) <;> simp_all
  · rw [whileRunning_complete]

/-- A run in which every call succeeds at once (handle 3, invalid handle 255,
file state 1 standing for `FileOpen`) goes through the six states in five
iterations and stays in `ExampleComplete` afterwards. -/
theorem whileRunning_all_succeed :
    (List.range 7).map (fun n =>
        (whileRunning 255 1 (List.replicate n ⟨true, 3, fun _ => true, fun _ => 1, fun _ => true⟩)
          (initialVars 255)).state)
      = [OpenFile, WaitForFileToBeOpen, WriteFile, WaitForFileWrite, CloseFile,
          ExampleComplete, ExampleComplete] := by
  decide

/-- A run in which every call fails (and every poll misses) never leaves
`OpenFile`. -/
theorem whileRunning_all_fail :
    (whileRunning 255 1 (List.replicate 4 ⟨false, 255, fun _ => false, fun _ => 0, fun _ => false⟩)
      (initialVars 255)).state = OpenFile := by
  decide

end FileServerExample
